import Mathlib

/-!
Verification of the cognitive tick pipeline of this repository: retrieval
scoring (retrieval.py), reflection triggering and synthesis (reflection.py),
hierarchical planning (planning.py), the agent tick loop (agent.py), the
perception cache (src/generative_agents/perception.py), the embedding retry
policy (src/generative_agents/embeddings.py) and the simulation scheduler
(src/generative_agents/simulation.py).

Modelling conventions: Python floats are modelled as rationals wherever the
code only adds, divides and compares them (importance scores, relevance
values, similarity fractions, timestamps in seconds), and as real numbers
where genuine real-valued functions occur (the exponential recency decay
`0.995 ** elapsed_hours`).  Python's stable `sorted` is modelled by
`List.insertionSort`, which is stable for the insertion relation used below,
and a stable sort on a fixed key is unique, so this is a faithful model.
Wall-clock defaults (`datetime.now`) are replaced by an explicit `now`
parameter, matching the injection hook the code itself offers.
-/

/-- Categories of memory, from memory.py `MemoryType`. -/
inductive MemoryType where
  | episodic
  | semantic
  | procedural
  | reflective
deriving DecidableEq, Repr

/-- String value of a memory type, mirroring the Python `str`-enum `.value`. -/
def MemoryType.value : MemoryType → String
  | .episodic => "episodic"
  | .semantic => "semantic"
  | .procedural => "procedural"
  | .reflective => "reflective"

/-- Optional visual metadata tied to a memory, from memory.py `VisualContext`. -/
structure VisualContext where
  scene_description : Option String
  image_ref : Option String
  extracted_entities : List String
deriving DecidableEq, Repr

/-- Canonical memory object, from memory.py `Memory`.  Timestamps are seconds
since an arbitrary epoch (already normalised to UTC by the pydantic
validator, so a single rational suffices). -/
structure Memory where
  description : String
  created_at : ℚ
  last_accessed : ℚ
  importance_score : ℚ
  memory_type : MemoryType
  embedding_vector_ref : String
  pointers_to_evidence : List String
  visual_context : Option VisualContext
deriving DecidableEq, Repr

/-- Update of the last access time, from memory.py `Memory.mark_accessed`
(modelled functionally: the Python method mutates in place). -/
def Memory.mark_accessed (m : Memory) (when : ℚ) : Memory :=
  { m with last_accessed := when }

/-- Memory enriched with retrieval component scores, from memory.py
`RetrievedMemory`.  The recency component and hence the final score are real
numbers because recency is an exponential. -/
structure RetrievedMemory where
  memory : Memory
  recency : ℝ
  importance : ℚ
  relevance : ℚ
  final_score : ℝ

/-- Elapsed hours used by retrieval.py `recency_score`: the non-negative
clamp of `(now - last_accessed) / 3600` seconds-to-hours. -/
def elapsedHours (last_accessed now : ℚ) : ℚ :=
  max ((now - last_accessed) / 3600) 0

/-- Recency score from retrieval.py `recency_score`: exponential decay
`0.995 ** elapsed_hours`. -/
noncomputable def recency_score (last_accessed now : ℚ) : ℝ :=
  (0.995 : ℝ) ^ ((elapsedHours last_accessed now : ℚ) : ℝ)

/-- Additive combination from retrieval.py `final_score`. -/
noncomputable def final_score (recency : ℝ) (importance relevance : ℚ) : ℝ :=
  recency + (importance : ℝ) + (relevance : ℝ)

/-- Scoring of one memory, from retrieval.py `score_memory`. -/
noncomputable def score_memory (memory : Memory) (relevance : ℚ) (now : ℚ) :
    RetrievedMemory :=
  { memory := memory
    recency := recency_score memory.last_accessed now
    importance := memory.importance_score
    relevance := relevance
    final_score := final_score (recency_score memory.last_accessed now)
      memory.importance_score relevance }

/-- Descending-final-score relation used to model Python's
`sorted(key=final_score, reverse=True)`. -/
def scoreGe (a b : RetrievedMemory) : Prop :=
  b.final_score ≤ a.final_score

noncomputable instance : DecidableRel scoreGe :=
  fun _ _ => Real.decidableLE _ _

instance : IsTotal RetrievedMemory scoreGe :=
  ⟨fun a b => le_total b.final_score a.final_score⟩

instance : IsTrans RetrievedMemory scoreGe :=
  ⟨fun _ _ _ hab hbc => le_trans hbc hab⟩

/-- Relevance lookup: Python `relevance_by_embedding_ref.get(ref, 0.0)`.  The
dict is modelled as a finite lookup map `String → Option ℚ`. -/
def relevanceLookup (rel : String → Option ℚ) (ref : String) : ℚ :=
  (rel ref).getD 0

/-- Ranking from retrieval.py `retrieve_top_memories`: score every memory,
stable-sort descending by final score, truncate to `top_k`. -/
noncomputable def retrieve_top_memories (memories : List Memory)
    (relevance_by_embedding_ref : String → Option ℚ) (top_k : ℕ) (now : ℚ) :
    List RetrievedMemory :=
  ((memories.map fun m =>
      score_memory m (relevanceLookup relevance_by_embedding_ref m.embedding_vector_ref) now).insertionSort
    scoreGe).take top_k

/-- Scored-but-unsorted list, for stating the stability property of C1. -/
noncomputable def scoredMemories (memories : List Memory)
    (relevance_by_embedding_ref : String → Option ℚ) (now : ℚ) :
    List RetrievedMemory :=
  memories.map fun m =>
    score_memory m (relevanceLookup relevance_by_embedding_ref m.embedding_vector_ref) now

lemma retrieve_top_memories_eq (memories : List Memory)
    (rel : String → Option ℚ) (top_k : ℕ) (now : ℚ) :
    retrieve_top_memories memories rel top_k now =
      ((scoredMemories memories rel now).insertionSort scoreGe).take top_k :=
  rfl

/-- Filter predicate selecting the items of one final-score tie class. -/
noncomputable def tieClass (c : ℝ) (rm : RetrievedMemory) : Bool :=
  decide (rm.final_score = c)

lemma filter_orderedInsert_tieClass (c : ℝ) (x : RetrievedMemory) :
    ∀ l : List RetrievedMemory,
      (l.orderedInsert scoreGe x).filter (tieClass c) =
        if x.final_score = c then x :: l.filter (tieClass c)
        else l.filter (tieClass c) := by
  intro l
  induction l with
  | nil =>
    by_cases hx : x.final_score = c <;>
      simp [List.orderedInsert, List.filter, tieClass, hx]
  | cons y ys ih =>
    by_cases hr : scoreGe x y
    · by_cases hx : x.final_score = c <;>
        simp [List.orderedInsert, hr, List.filter, tieClass, hx]
    · have hlt : x.final_score < y.final_score := lt_of_not_le hr
      by_cases hx : x.final_score = c
      · have hy : ¬ y.final_score = c := by
          intro hyc
          exact absurd (hyc.trans hx.symm) (ne_of_gt hlt)
        simp [List.orderedInsert, hr, List.filter, tieClass, hx, hy, ih]
      · by_cases hy : y.final_score = c <;>
          simp [List.orderedInsert, hr, List.filter, tieClass, hx, hy, ih]

lemma filter_insertionSort_tieClass (c : ℝ) :
    ∀ l : List RetrievedMemory,
      (l.insertionSort scoreGe).filter (tieClass c) = l.filter (tieClass c) := by
  intro l
  induction l with
  | nil => rfl
  | cons x xs ih =>
    by_cases hx : x.final_score = c <;>
      simp [List.insertionSort, filter_orderedInsert_tieClass, hx, ih,
        List.filter, tieClass]

/-- C1. For every list of memories, every relevance map and every `top_k`,
`retrieve_top_memories` returns at most `top_k` items, sorted by
non-increasing `final_score`, and within each final-score tie class the
returned items form a prefix of the scored input in input order (stable
tie-break). -/
theorem c1_retrieve_top_memories_spec (memories : List Memory)
    (rel : String → Option ℚ) (top_k : ℕ) (now : ℚ) :
    (retrieve_top_memories memories rel top_k now).length ≤ top_k ∧
    (retrieve_top_memories memories rel top_k now).Pairwise scoreGe ∧
    ∀ c : ℝ, ∃ t : List RetrievedMemory,
      (retrieve_top_memories memories rel top_k now).filter (tieClass c) ++ t =
        (scoredMemories memories rel now).filter (tieClass c) := by
  refine ⟨?_, ?_, ?_⟩
  · simp [retrieve_top_memories, List.length_take]
  · exact ((List.sorted_insertionSort scoreGe _).sublist
      (List.take_sublist _ _))
  · intro c
    refine ⟨((scoredMemories memories rel now).insertionSort scoreGe).drop
      top_k |>.filter (tieClass c), ?_⟩
    rw [retrieve_top_memories_eq, ← List.filter_append, List.take_append_drop]
    exact filter_insertionSort_tieClass c _

/-- Reflection trigger threshold, from reflection.py
`REFLECTION_TRIGGER_THRESHOLD = 150.0`. -/
def REFLECTION_TRIGGER_THRESHOLD : ℚ := 150

/-- Total importance of a list of memories, as summed by reflection.py. -/
def sumImportance (memories : List Memory) : ℚ :=
  (memories.map (·.importance_score)).sum

/-- Trigger decision from reflection.py `should_trigger_reflection`:
cumulative importance strictly above the threshold. -/
def should_trigger_reflection (memories : List Memory) : Bool :=
  decide (REFLECTION_TRIGGER_THRESHOLD < sumImportance memories)

/-- Mean importance, from reflection.py `generate_high_level_insights`
(`sum(...) / len(...)`; only evaluated on non-empty input in the code). -/
def avgImportance (memories : List Memory) : ℚ :=
  sumImportance memories / memories.length

/-- Values stored in an insight's metadata map (the code stores either a
rounded number or a tag string). -/
inductive MetaVal where
  | num (q : ℚ)
  | str (s : String)
deriving DecidableEq, Repr

/-- High-level synthesis record, from memory.py `ReflectionInsight`. -/
structure ReflectionInsight where
  summary : String
  supporting_memories : List String
  metadata : List (String × MetaVal)
deriving DecidableEq, Repr

/-- Round-half-to-even on rationals, modelling Python's `round` on the exact
value (binary floating-point representation error is not modelled). -/
def roundHalfEven (x : ℚ) : ℤ :=
  let f := ⌊x⌋
  let r := x - f
  if r < 1 / 2 then f
  else if 1 / 2 < r then f + 1
  else if f % 2 = 0 then f else f + 1

/-- Python `round(x, 3)` on the exact rational value. -/
def round3 (x : ℚ) : ℚ :=
  (roundHalfEven (x * 1000) : ℚ) / 1000

/-- Keys of a multiset of strings in first-occurrence order, modelling the
insertion order of a Python `Counter` dict. -/
def uniqAux : List String → List String → List String
  | [], acc => acc.reverse
  | x :: xs, acc => if x ∈ acc then uniqAux xs acc else uniqAux xs (x :: acc)

/-- First-occurrence-ordered distinct keys of a list of strings. -/
def uniqKeys (l : List String) : List String :=
  uniqAux l []

/-- Descending-count relation used to model `Counter.most_common`, which is
a stable sort of the counter items by count, descending. -/
def countGe (a b : String × ℕ) : Prop :=
  b.2 ≤ a.2

instance : DecidableRel countGe :=
  fun a b => inferInstanceAs (Decidable (b.2 ≤ a.2))

/-- Items of `Counter(values).most_common()`: (key, count) pairs in
first-insertion order, stably sorted by count descending. -/
def mostCommon (values : List String) : List (String × ℕ) :=
  ((uniqKeys values).map fun k => (k, values.count k)).insertionSort countGe

/-- Apostrophe as a string, written via its code point. -/
def sqMark : String :=
  String.singleton (Char.ofNat 39)

/-- Summary text of the first insight, from reflection.py (the
f-string joining `kind (count)` fragments over `most_common()`). -/
def typeSummary (memories : List Memory) : String :=
  "Recent activity concentrates in " ++
    String.intercalate ", "
      ((mostCommon (memories.map (·.memory_type.value))).map fun p =>
        p.1 ++ " (" ++ toString p.2 ++ ")") ++ "."

/-- First insight of reflection.py `generate_high_level_insights`: memory
type distribution, evidence = first five descriptions, metadata = mean
importance rounded to three decimals. -/
def typeInsight (memories : List Memory) : ReflectionInsight :=
  { summary := typeSummary memories
    supporting_memories := (memories.take 5).map (·.description)
    metadata := [("average_importance", MetaVal.num (round3 (avgImportance memories)))] }

/-- Descending-importance relation on memories, modelling
`sorted(key=importance_score, reverse=True)` in reflection.py. -/
def impGe (a b : Memory) : Prop :=
  b.importance_score ≤ a.importance_score

instance : DecidableRel impGe :=
  fun a b => inferInstanceAs (Decidable (b.importance_score ≤ a.importance_score))

instance : IsTotal Memory impGe :=
  ⟨fun a b => le_total b.importance_score a.importance_score⟩

instance : IsTrans Memory impGe :=
  ⟨fun _ _ _ hab hbc => le_trans hbc hab⟩

/-- Second insight (high-priority signal) of reflection.py, produced when
mean importance is at least 50. -/
def highPriorityInsight (memories : List Memory) : ReflectionInsight :=
  { summary := "Current memory stream indicates high-priority context that may require proactive planning."
    supporting_memories := ((memories.insertionSort impGe).take 3).map (·.description)
    metadata := [("signal", MetaVal.str "high_importance")] }

/-- Third insight (temporal shift) of reflection.py, produced when at least
four memories are present; contrasts the first element against the last. -/
def temporalShiftInsight (memories : List Memory) : ReflectionInsight :=
  let latest := memories.headD
    { description := "", created_at := 0, last_accessed := 0, importance_score := 0,
      memory_type := MemoryType.episodic, embedding_vector_ref := "",
      pointers_to_evidence := [], visual_context := none }
  let oldest := memories.getLastD
    { description := "", created_at := 0, last_accessed := 0, importance_score := 0,
      memory_type := MemoryType.episodic, embedding_vector_ref := "",
      pointers_to_evidence := [], visual_context := none }
  { summary := "Context appears to evolve from " ++ sqMark ++ oldest.description ++ sqMark ++
      " toward " ++ sqMark ++ latest.description ++ sqMark ++ "."
    supporting_memories := [oldest.description, latest.description]
    metadata := [("signal", MetaVal.str "temporal_shift")] }

/-- Insight synthesis from reflection.py `generate_high_level_insights`. -/
def generate_high_level_insights (recent_memories : List Memory)
    (max_insights : ℕ) : List ReflectionInsight :=
  if recent_memories = [] then []
  else
    let base := [typeInsight recent_memories]
    let withHigh :=
      if (50 : ℚ) ≤ avgImportance recent_memories
      then base ++ [highPriorityInsight recent_memories] else base
    let withShift :=
      if 4 ≤ recent_memories.length
      then withHigh ++ [temporalShiftInsight recent_memories] else withHigh
    withShift.take max_insights

/-- C6. `should_trigger_reflection` is true iff the summed importance
strictly exceeds 150.0, and in particular a sum of exactly 150.0 does not
trigger. -/
theorem c6_should_trigger_reflection_iff :
    (∀ memories : List Memory,
      should_trigger_reflection memories = true ↔
        REFLECTION_TRIGGER_THRESHOLD < sumImportance memories) ∧
    ∀ memories : List Memory, sumImportance memories = 150 →
      should_trigger_reflection memories = false := by
  constructor
  · intro memories
    simp [should_trigger_reflection]
  · intro memories h
    simp [should_trigger_reflection, h, REFLECTION_TRIGGER_THRESHOLD]

/-- Boundary memory of importance exactly 150, for the C6 witness. -/
def memImp150 : Memory :=
  { description := "boundary", created_at := 0, last_accessed := 0,
    importance_score := 150, memory_type := MemoryType.episodic,
    embedding_vector_ref := "e150", pointers_to_evidence := [],
    visual_context := none }

/-- Witness for C6 at the boundary: a single memory of importance 150 sums
to exactly 150 and does not trigger reflection. -/
theorem c6_should_trigger_reflection_iff_witness :
    sumImportance [memImp150] = 150 ∧
      should_trigger_reflection [memImp150] = false :=
  ⟨by norm_num [sumImportance, memImp150],
    c6_should_trigger_reflection_iff.2 [memImp150]
      (by norm_num [sumImportance, memImp150])⟩

/-- C5. `generate_high_level_insights` (the spec's `synthesize`) returns an
empty list on empty input; exactly 3 insights on 4+ memories of mean
importance at least 50; and on a non-empty list of fewer than 4 memories of
mean importance below 50 exactly 1 insight, whose supporting evidence is the
first 5 memories' descriptions and whose metadata carries the mean
importance rounded to 3 decimals. -/
theorem c5_synthesize_counts :
    generate_high_level_insights [] 3 = [] ∧
    (∀ l : List Memory, 4 ≤ l.length → (50 : ℚ) ≤ avgImportance l →
      (generate_high_level_insights l 3).length = 3) ∧
    ∀ l : List Memory, l ≠ [] → l.length < 4 → avgImportance l < 50 →
      generate_high_level_insights l 3 =
        [{ summary := typeSummary l
           supporting_memories := (l.take 5).map (·.description)
           metadata :=
             [("average_importance", MetaVal.num (round3 (avgImportance l)))] }] := by
  refine ⟨rfl, ?_, ?_⟩
  · intro l h4 h50
    have hne : l ≠ [] := by
      intro h
      rw [h] at h4
      simp at h4
    simp [generate_high_level_insights, hne, h50, h4]
  · intro l hne h4 h50
    have h50n : ¬ (50 : ℚ) ≤ avgImportance l := not_le.mpr h50
    have h4n : ¬ 4 ≤ l.length := not_le.mpr h4
    simp [generate_high_level_insights, hne, h50n, h4n, typeInsight]

/-- Concrete memory builder used by witnesses. -/
def mkSimpleMemory (d : String) (imp : ℚ) : Memory :=
  { description := d, created_at := 0, last_accessed := 0,
    importance_score := imp, memory_type := MemoryType.semantic,
    embedding_vector_ref := d, pointers_to_evidence := [],
    visual_context := none }

/-- Four memories of importance 60 (mean 60 ≥ 50). -/
def c5listHigh : List Memory :=
  [mkSimpleMemory "a" 60, mkSimpleMemory "b" 60,
   mkSimpleMemory "c" 60, mkSimpleMemory "d" 60]

/-- One memory of importance 10 (mean 10 < 50). -/
def c5listLow : List Memory :=
  [mkSimpleMemory "x" 10]

/-- Witness for C5: the 4-element high-importance list yields 3 insights and
the single low-importance memory yields the single distribution insight. -/
theorem c5_synthesize_counts_witness :
    (generate_high_level_insights c5listHigh 3).length = 3 ∧
    generate_high_level_insights c5listLow 3 =
      [{ summary := typeSummary c5listLow
         supporting_memories := (c5listLow.take 5).map (·.description)
         metadata :=
           [("average_importance", MetaVal.num (round3 (avgImportance c5listLow)))] }] :=
  ⟨c5_synthesize_counts.2.1 c5listHigh (by simp [c5listHigh])
      (by norm_num [avgImportance, sumImportance, c5listHigh, mkSimpleMemory]),
    c5_synthesize_counts.2.2 c5listLow (by simp [c5listLow])
      (by simp [c5listLow])
      (by norm_num [avgImportance, sumImportance, c5listLow, mkSimpleMemory])⟩

/-- Concrete short action, from planning.py `ActionStep` (the 5-15 minute
duration bound is the pydantic field constraint, checked separately by
`mkActionStep`). -/
structure ActionStep where
  title : String
  duration_minutes : ℤ
deriving DecidableEq, Repr

/-- Validating construction of an `ActionStep`, modelling the pydantic
`Field(..., ge=5, le=15)` constraint: out-of-range durations are rejected
(pydantic raises a ValidationError). -/
def mkActionStep (title : String) (duration_minutes : ℤ) : Option ActionStep :=
  if 5 ≤ duration_minutes ∧ duration_minutes ≤ 15 then
    some { title := title, duration_minutes := duration_minutes }
  else none

/-- One hour block, from planning.py `HourlyPlan`. -/
structure HourlyPlan where
  hour_label : String
  objective : String
  actions : List ActionStep
deriving DecidableEq, Repr

/-- Top-level day plan, from planning.py `DailyAgenda`. -/
structure DailyAgenda where
  date_label : String
  goals : List String
  hourly_plan : List HourlyPlan
deriving DecidableEq, Repr

/-- Hour block generated for one retrieved memory, from the loop body of
planning.py `generate_hierarchical_plan` (durations 10/15/5). -/
def memoryBlock (index : ℕ) (rm : RetrievedMemory) : HourlyPlan :=
  { hour_label := "Hour " ++ toString index
    objective := "Advance: " ++ rm.memory.description
    actions :=
      [{ title := "Review context for " ++ rm.memory.memory_type.value ++ " memory"
         duration_minutes := 10 },
       { title := "Execute next step tied to " ++ sqMark ++ rm.memory.description ++ sqMark
         duration_minutes := 15 },
       { title := "Capture concise outcome note", duration_minutes := 5 }] }

/-- Enumerated hour blocks, modelling `enumerate(retrieved_memories[:3],
start=1)` applied to the already-truncated list. -/
def planBlocks : ℕ → List RetrievedMemory → List HourlyPlan
  | _, [] => []
  | i, rm :: rest => memoryBlock i rm :: planBlocks (i + 1) rest

/-- Fallback hour emitted when there are no retrieved memories, from
planning.py `generate_hierarchical_plan`. -/
def fallbackBlock : HourlyPlan :=
  { hour_label := "Hour 1"
    objective := "Stabilize baseline operations"
    actions :=
      [{ title := "Review pending tasks", duration_minutes := 10 },
       { title := "Complete a highest-impact task", duration_minutes := 15 },
       { title := "Log lessons learned", duration_minutes := 5 }] }

/-- Plan generation from planning.py `generate_hierarchical_plan`. -/
def generate_hierarchical_plan (retrieved_memories : List RetrievedMemory)
    (insights : List ReflectionInsight) (date_label : String) : DailyAgenda :=
  let goals0 := (insights.take 3).map (·.summary)
  let goals := if goals0 = [] then ["Maintain progress on current priorities."] else goals0
  let blocks := planBlocks 1 (retrieved_memories.take 3)
  { date_label := date_label
    goals := goals
    hourly_plan := if blocks = [] then [fallbackBlock] else blocks }

/-- Duration bound check on one action step. -/
def durOk (a : ActionStep) : Bool :=
  decide (5 ≤ a.duration_minutes) && decide (a.duration_minutes ≤ 15)

/-- Duration bound check on one hour block. -/
def blockOk (h : HourlyPlan) : Bool :=
  h.actions.all durOk

lemma planBlocks_all_blockOk : ∀ (i : ℕ) (l : List RetrievedMemory),
    (planBlocks i l).all blockOk = true := by
  intro i l
  induction l generalizing i with
  | nil => rfl
  | cons rm rest ih =>
    simp only [planBlocks, List.all_cons, Bool.and_eq_true]
    exact ⟨by simp [blockOk, memoryBlock, durOk], ih (i + 1)⟩

/-- C8. Every generated `DailyAgenda` has at least one hourly block, every
action step in it has duration in [5, 15], and constructing an `ActionStep`
with a duration outside [5, 15] is rejected. -/
theorem c8_plan_invariants :
    (∀ (r : List RetrievedMemory) (i : List ReflectionInsight) (lbl : String),
      1 ≤ (generate_hierarchical_plan r i lbl).hourly_plan.length) ∧
    (∀ (r : List RetrievedMemory) (i : List ReflectionInsight) (lbl : String),
      (generate_hierarchical_plan r i lbl).hourly_plan.all blockOk = true) ∧
    ∀ (t : String) (d : ℤ), (d < 5 ∨ 15 < d) → mkActionStep t d = none := by
  refine ⟨?_, ?_, ?_⟩
  · intro r i lbl
    unfold generate_hierarchical_plan
    by_cases h : planBlocks 1 (r.take 3) = []
    · simp [h]
    · simp only [h, if_neg, ite_false]
      have := List.length_pos.mpr h
      omega
  · intro r i lbl
    unfold generate_hierarchical_plan
    by_cases h : planBlocks 1 (r.take 3) = []
    · simp [h, blockOk, fallbackBlock, durOk]
    · simp only [h, ite_false]
      exact planBlocks_all_blockOk 1 (r.take 3)
  · intro t d hd
    unfold mkActionStep
    rw [if_neg]
    rintro ⟨h5, h15⟩
    rcases hd with h | h
    · omega
    · omega

/-- Witness for C8: the empty-input plan has one (fallback) block with all
durations in range, and a 99-minute action step is rejected. -/
theorem c8_plan_invariants_witness :
    1 ≤ (generate_hierarchical_plan [] [] "today").hourly_plan.length ∧
    (generate_hierarchical_plan [] [] "today").hourly_plan.all blockOk = true ∧
    mkActionStep "too long" 99 = none :=
  ⟨c8_plan_invariants.1 [] [] "today",
    c8_plan_invariants.2.1 [] [] "today",
    c8_plan_invariants.2.2 "too long" 99 (by decide)⟩

/-- Agent state, from agent.py `Agent.__init__`. -/
structure Agent where
  memories : List Memory
  insights : List ReflectionInsight
  current_plan : Option DailyAgenda

/-- Retrieval step, from agent.py `Agent.retrieve`. -/
noncomputable def Agent.retrieve (a : Agent) (rel : String → Option ℚ)
    (top_k : ℕ) (now : ℚ) : List RetrievedMemory :=
  retrieve_top_memories a.memories rel top_k now

/-- Reflection step, from agent.py `Agent.reflect`: when the trigger fails
the stored insights are left untouched and an empty list is returned;
when it fires the stored insights are replaced and returned. -/
def Agent.reflect (a : Agent) (recent_memories : List Memory) :
    Agent × List ReflectionInsight :=
  if should_trigger_reflection recent_memories then
    let insights := generate_high_level_insights recent_memories 3
    ({ a with insights := insights }, insights)
  else (a, [])

/-- Planning step, from agent.py `Agent.plan`: note that it reads the
agent's stored `insights` field, not a per-tick argument. -/
def Agent.plan (a : Agent) (retrieved_memories : List RetrievedMemory) :
    Agent × DailyAgenda :=
  let p := generate_hierarchical_plan retrieved_memories a.insights "today"
  ({ a with current_plan := some p }, p)

/-- First action of the first hour block with actions, from agent.py
`Agent.select_action`. -/
def firstHourAction : List HourlyPlan → String
  | [] => "No action available."
  | h :: rest =>
    match h.actions with
    | [] => firstHourAction rest
    | a :: _ => a.title

/-- Action selection, from agent.py `Agent.select_action`. -/
def Agent.select_action (a : Agent) : String :=
  match a.current_plan with
  | none => "No plan available."
  | some p => firstHourAction p.hourly_plan

/-- Structured tick output, from the dict returned by agent.py
`Agent.tick`. -/
structure TickResult where
  retrieved : List RetrievedMemory
  insights : List ReflectionInsight
  plan : DailyAgenda
  action : String
  timestamp : ℚ

/-- One cognitive tick, from agent.py `Agent.tick`: retrieve, mark the
retrieved memories accessed (in-place mutation modelled by mapping over the
store by value), reflect on the marked batch, plan, select an action.  The
code lets retrieval default `now` to a wall-clock instant microseconds after
the tick timestamp; both instants are modelled by the single injected
`now`. -/
noncomputable def Agent.tick (a : Agent) (rel : String → Option ℚ) (now : ℚ) :
    Agent × TickResult :=
  let retrieved := a.retrieve rel 5 now
  let recent_memories := retrieved.map (·.memory)
  let marked := recent_memories.map (fun m => m.mark_accessed now)
  let a1 : Agent :=
    { a with memories :=
        a.memories.map fun m => if m ∈ recent_memories then m.mark_accessed now else m }
  let ref := a1.reflect marked
  let pl := ref.1.plan retrieved
  (pl.1,
    { retrieved := retrieved
      insights := ref.2
      plan := pl.2
      action := pl.1.select_action
      timestamp := now })

lemma sumImportance_mark_accessed (l : List Memory) (now : ℚ) :
    sumImportance (l.map fun m => m.mark_accessed now) = sumImportance l := by
  simp [sumImportance, List.map_map, Function.comp_def, Memory.mark_accessed]

lemma Agent.reflect_not_triggered (a : Agent) (l : List Memory)
    (h : should_trigger_reflection l = false) : a.reflect l = (a, []) := by
  simp [Agent.reflect, h]

/-- C2 (amended). In any tick where reflection does not trigger (summed
importance of the retrieved memories at most 150), the reflection output is
empty and the plan is built from that tick's retrieval output together with
the agent's stored insights from earlier ticks; the goals collapse to the
single fallback goal only when those stored insights are empty. -/
theorem c2_tick_plan_amended (a : Agent) (rel : String → Option ℚ) (now : ℚ)
    (h : sumImportance ((a.retrieve rel 5 now).map (·.memory)) ≤ 150) :
    (a.tick rel now).2.insights = [] ∧
    (a.tick rel now).2.plan =
      generate_hierarchical_plan (a.retrieve rel 5 now) a.insights "today" ∧
    (a.insights = [] →
      (a.tick rel now).2.plan.goals = ["Maintain progress on current priorities."]) := by
  have htrig : should_trigger_reflection
      (((a.retrieve rel 5 now).map (·.memory)).map fun m => m.mark_accessed now) = false := by
    simp only [should_trigger_reflection, sumImportance_mark_accessed,
      decide_eq_false_iff_not, not_lt, REFLECTION_TRIGGER_THRESHOLD]
    exact h
  refine ⟨?_, ?_, ?_⟩
  · simp only [Agent.tick]
    rw [Agent.reflect_not_triggered _ _ htrig]
  · simp only [Agent.tick]
    rw [Agent.reflect_not_triggered _ _ htrig]
    simp [Agent.plan]
  · intro hins
    simp only [Agent.tick]
    rw [Agent.reflect_not_triggered _ _ htrig]
    simp [Agent.plan, generate_hierarchical_plan, hins]

/-- Agent with no memories and no stored insights, for the C2 witness. -/
def emptyAgent : Agent :=
  { memories := [], insights := [], current_plan := none }

/-- Witness for C2 (amended): a fresh agent with no memories does not
trigger reflection and its tick plan carries the fallback goal. -/
theorem c2_tick_plan_amended_witness :
    (emptyAgent.tick (fun _ => none) 0).2.plan.goals =
      ["Maintain progress on current priorities."] :=
  (c2_tick_plan_amended emptyAgent (fun _ => none) 0
    (by simp [Agent.retrieve, retrieve_top_memories, emptyAgent, sumImportance])).2.2 rfl

/-- Stored insight left over from an earlier (triggered) reflection, for the
C2 counterexample. -/
def staleInsight : ReflectionInsight :=
  { summary := "Prior insight", supporting_memories := [], metadata := [] }

/-- Agent whose stored insights are non-empty but whose memory store is
empty, for the C2 counterexample. -/
def staleAgent : Agent :=
  { memories := [], insights := [staleInsight], current_plan := none }

/-- Counterexample to C2 as stated: in a tick of `staleAgent` reflection
does not trigger (summed importance 0 ≤ 150) and the reflection output is
empty, yet the plan's goals are the stale stored insight's summary, not the
fallback goal. -/
theorem c2_plan_not_from_tick_reflection_counterexample :
    sumImportance ((staleAgent.retrieve (fun _ => none) 5 0).map (·.memory)) ≤ 150 ∧
    (staleAgent.tick (fun _ => none) 0).2.insights = [] ∧
    (staleAgent.tick (fun _ => none) 0).2.plan.goals = ["Prior insight"] ∧
    (staleAgent.tick (fun _ => none) 0).2.plan.goals ≠
      ["Maintain progress on current priorities."] := by
  have hret : staleAgent.retrieve (fun _ => none) 5 0 = [] := rfl
  have h0 : should_trigger_reflection ([] : List Memory) = false := by
    simp only [should_trigger_reflection, sumImportance, List.map_nil,
      List.sum_nil, decide_eq_false_iff_not, not_lt, REFLECTION_TRIGGER_THRESHOLD]
    norm_num
  have hgoals : (staleAgent.tick (fun _ => none) 0).2.plan.goals = ["Prior insight"] := by
    simp only [Agent.tick, hret, List.map_nil]
    rw [Agent.reflect_not_triggered _ _ h0]
    simp [Agent.plan, generate_hierarchical_plan, staleAgent, staleInsight]
  refine ⟨?_, ?_, hgoals, ?_⟩
  · rw [hret]
    simp [sumImportance]
  · simp only [Agent.tick, hret, List.map_nil]
    rw [Agent.reflect_not_triggered _ _ h0]
  · rw [hgoals]
    decide

lemma elapsedHours_nonneg (last_accessed now : ℚ) :
    0 ≤ elapsedHours last_accessed now :=
  le_max_right _ _

lemma elapsedHours_of_future (last_accessed now : ℚ) (h : now ≤ last_accessed) :
    elapsedHours last_accessed now = 0 := by
  unfold elapsedHours
  apply max_eq_right
  have hnum : now - last_accessed ≤ 0 := by linarith
  have := (div_le_div_iff_of_pos_right (c := (3600 : ℚ)) (by norm_num)).mpr hnum
  simpa using this

lemma elapsedHours_strict_mono (last_accessed now1 now2 : ℚ)
    (h1 : last_accessed ≤ now1) (h2 : now1 < now2) :
    elapsedHours last_accessed now1 < elapsedHours last_accessed now2 := by
  unfold elapsedHours
  have e1 : max ((now1 - last_accessed) / 3600) 0 = (now1 - last_accessed) / 3600 := by
    apply max_eq_left
    apply div_nonneg ?_ (by norm_num)
    linarith
  have e2 : max ((now2 - last_accessed) / 3600) 0 = (now2 - last_accessed) / 3600 := by
    apply max_eq_left
    apply div_nonneg ?_ (by norm_num)
    linarith
  rw [e1, e2]
  apply div_lt_div_of_pos_right ?_ (by norm_num)
  linarith

/-- C7. The recency score `0.995 ^ elapsed_hours` (elapsed hours clamped
non-negative) lies strictly in (0, 1], equals exactly 1 when elapsed time is
zero or `last_accessed` lies in the future, and strictly decreases as
elapsed time increases. -/
theorem c7_recency_score_properties (last_accessed now : ℚ) :
    (0 < recency_score last_accessed now ∧ recency_score last_accessed now ≤ 1) ∧
    (now ≤ last_accessed → recency_score last_accessed now = 1) ∧
    ∀ now2 : ℚ, last_accessed ≤ now → now < now2 →
      recency_score last_accessed now2 < recency_score last_accessed now := by
  refine ⟨⟨?_, ?_⟩, ?_, ?_⟩
  · exact Real.rpow_pos_of_pos (by norm_num) _
  · apply Real.rpow_le_one (by norm_num) (by norm_num)
    exact_mod_cast elapsedHours_nonneg last_accessed now
  · intro h
    rw [recency_score, elapsedHours_of_future last_accessed now h]
    simp
  · intro now2 h1 h2
    apply Real.rpow_lt_rpow_of_exponent_gt (by norm_num) (by norm_num)
    exact_mod_cast elapsedHours_strict_mono last_accessed now now2 h1 h2

/-- Witness for C7: at `last_accessed = 0` the score at `now = 0` is exactly
1 and the score one hour later is strictly smaller. -/
theorem c7_recency_score_properties_witness :
    recency_score 0 0 = 1 ∧ recency_score 0 3600 < recency_score 0 0 :=
  ⟨(c7_recency_score_properties 0 0).2.1 le_rfl,
    (c7_recency_score_properties 0 0).2.2 3600 le_rfl (by norm_num)⟩

/-- Per-agent cache record, from perception.py `VisionCacheState`. -/
structure VisionCacheState where
  image_hash : Option String
  last_description : Option String
  ticks_since_inference : ℕ
deriving DecidableEq, Repr

/-- Fresh cache record (the dataclass defaults). -/
def VisionCacheState.init : VisionCacheState :=
  { image_hash := none, last_description := none, ticks_since_inference := 0 }

/-- Perception gate configuration, from the `VisualPerceptionService`
constructor (`glance_interval_ticks`, `change_threshold`). -/
structure PerceptionConfig where
  glance_interval_ticks : ℕ
  change_threshold : ℚ

/-- Hex-string position-for-position similarity, from perception.py
`_hash_similarity`: 0 when there is no previous hash or the lengths differ,
else the fraction of matching characters.  The code divides by the current
hash's length; the unreachable 0/0 case (two empty equal-length hashes,
impossible for sha256 hex digests) is 0 here where Python would raise. -/
def hashSimilarity (previous_hash : Option String) (current_hash : String) : ℚ :=
  match previous_hash with
  | none => 0
  | some p =>
    if p.length ≠ current_hash.length then 0
    else (((p.data.zip current_hash.data).filter fun pr =>
        decide (pr.1 = pr.2)).length : ℚ) / (current_hash.length : ℚ)

/-- One call of perception.py `capture_and_describe` for a single agent,
given the freshly captured image's fingerprint and the description the
vision backend would produce if invoked.  Returns the updated cache record,
the returned description, and whether inference ran. -/
def capture_and_describe (cfg : PerceptionConfig) (st : VisionCacheState)
    (current_hash : String) (backend_description : String) :
    VisionCacheState × String × Bool :=
  let similarity := hashSimilarity st.image_hash current_hash
  let ticks := st.ticks_since_inference + 1
  let should_run_inference : Bool :=
    st.last_description.isNone ||
      decide (similarity < 1 - cfg.change_threshold) ||
      decide (cfg.glance_interval_ticks ≤ ticks)
  if should_run_inference then
    ({ image_hash := some current_hash, last_description := some backend_description,
       ticks_since_inference := 0 }, backend_description, true)
  else
    ({ st with ticks_since_inference := ticks }, st.last_description.getD "", false)

/-- Glance interval 3 with the default 0.10 change threshold, as in the C4
scenario. -/
def cfgGlance3 : PerceptionConfig :=
  { glance_interval_ticks := 3, change_threshold := 1 / 10 }

/-- First call of the C4 scenario: fresh cache, fingerprint "ab". -/
def c4call1 : VisionCacheState × String × Bool :=
  capture_and_describe cfgGlance3 VisionCacheState.init "ab" "first description"

/-- Second call: same fingerprint. -/
def c4call2 : VisionCacheState × String × Bool :=
  capture_and_describe cfgGlance3 c4call1.1 "ab" "second description"

/-- Third call: same fingerprint. -/
def c4call3 : VisionCacheState × String × Bool :=
  capture_and_describe cfgGlance3 c4call2.1 "ab" "third description"

/-- Fourth call: same fingerprint. -/
def c4call4 : VisionCacheState × String × Bool :=
  capture_and_describe cfgGlance3 c4call3.1 "ab" "fourth description"

lemma capture_runs (cfg : PerceptionConfig) (st : VisionCacheState) (h d : String)
    (hb : (st.last_description.isNone ||
        decide (hashSimilarity st.image_hash h < 1 - cfg.change_threshold) ||
        decide (cfg.glance_interval_ticks ≤ st.ticks_since_inference + 1)) = true) :
    capture_and_describe cfg st h d =
      ({ image_hash := some h, last_description := some d, ticks_since_inference := 0 },
        d, true) := by
  simp only [capture_and_describe]
  rw [hb]
  simp

lemma capture_cached (cfg : PerceptionConfig) (st : VisionCacheState) (h d : String)
    (hb : (st.last_description.isNone ||
        decide (hashSimilarity st.image_hash h < 1 - cfg.change_threshold) ||
        decide (cfg.glance_interval_ticks ≤ st.ticks_since_inference + 1)) = false) :
    capture_and_describe cfg st h d =
      ({ st with ticks_since_inference := st.ticks_since_inference + 1 },
        st.last_description.getD "", false) := by
  simp only [capture_and_describe]
  rw [hb]
  simp

lemma hashSimilarity_self_ab : hashSimilarity (some "ab") "ab" = 1 := by
  have hnum : ((("ab".data.zip "ab".data).filter fun pr =>
      decide (pr.1 = pr.2)).length : ℚ) = 2 := by
    norm_num [show (("ab".data.zip "ab".data).filter fun pr =>
      decide (pr.1 = pr.2)).length = 2 from rfl]
  simp only [hashSimilarity, hnum]
  norm_num [show "ab".length = 2 from rfl]

/-- C4. `capture_and_describe` runs inference iff no cached description
exists, or the hash similarity to the previous fingerprint is strictly below
`1 - change_threshold`, or the incremented ticks-since-inference counter has
reached `glance_interval_ticks`; with an unchanging fingerprint and glance
interval 3, inference runs on calls 1 and 4 but not 2 and 3, and calls 1 and
2 return equal descriptions. -/
theorem c4_perception_gate :
    (∀ (cfg : PerceptionConfig) (st : VisionCacheState) (h d : String),
      (capture_and_describe cfg st h d).2.2 = true ↔
        (st.last_description = none ∨
          hashSimilarity st.image_hash h < 1 - cfg.change_threshold ∨
          cfg.glance_interval_ticks ≤ st.ticks_since_inference + 1)) ∧
    (c4call1.2.2 = true ∧ c4call2.2.2 = false ∧ c4call3.2.2 = false ∧
      c4call4.2.2 = true ∧ c4call1.2.1 = c4call2.2.1) := by
  have hiff : ∀ (cfg : PerceptionConfig) (st : VisionCacheState) (h d : String),
      (capture_and_describe cfg st h d).2.2 = true ↔
        (st.last_description = none ∨
          hashSimilarity st.image_hash h < 1 - cfg.change_threshold ∨
          cfg.glance_interval_ticks ≤ st.ticks_since_inference + 1) := by
    intro cfg st h d
    simp only [capture_and_describe]
    split_ifs with hrun
    · refine iff_of_true rfl ?_
      simp only [Bool.or_eq_true, Option.isNone_iff_eq_none, decide_eq_true_eq] at hrun
      tauto
    · refine iff_of_false (by simp) ?_
      intro hP
      apply hrun
      simp only [Bool.or_eq_true, Option.isNone_iff_eq_none, decide_eq_true_eq]
      tauto
  have s1 : c4call1 =
      ({ image_hash := some "ab", last_description := some "first description",
         ticks_since_inference := 0 }, "first description", true) := rfl
  have hsimfalse : decide (hashSimilarity (some "ab") "ab" <
      1 - cfgGlance3.change_threshold) = false := by
    rw [decide_eq_false_iff_not, hashSimilarity_self_ab]
    norm_num [cfgGlance3]
  have s2 : c4call2 =
      ({ image_hash := some "ab", last_description := some "first description",
         ticks_since_inference := 1 }, "first description", false) := by
    rw [c4call2, s1]
    rw [capture_cached cfgGlance3 _ "ab" "second description"
      (by rw [show (VisionCacheState.mk (some "ab") (some "first description")
        0).last_description.isNone = false from rfl, hsimfalse]
          simp [cfgGlance3])]
    rfl
  have s3 : c4call3 =
      ({ image_hash := some "ab", last_description := some "first description",
         ticks_since_inference := 2 }, "first description", false) := by
    rw [c4call3, s2]
    rw [capture_cached cfgGlance3 _ "ab" "third description"
      (by rw [show (VisionCacheState.mk (some "ab") (some "first description")
        1).last_description.isNone = false from rfl, hsimfalse]
          simp [cfgGlance3])]
    rfl
  have s4 : c4call4 =
      ({ image_hash := some "ab", last_description := some "fourth description",
         ticks_since_inference := 0 }, "fourth description", true) := by
    rw [c4call4, s3]
    rw [capture_runs cfgGlance3 _ "ab" "fourth description" (by simp [cfgGlance3])]
  refine ⟨hiff, ?_, ?_, ?_, ?_, ?_⟩
  · rw [s1]
  · rw [s2]
  · rw [s3]
  · rw [s4]
  · rw [s1, s2]

/-- Witness for C4: the second scenario call is a cached one and the first
two calls agree on the returned description. -/
theorem c4_perception_gate_witness :
    c4call2.2.2 = false ∧ c4call1.2.1 = c4call2.2.1 :=
  ⟨c4_perception_gate.2.2.1, c4_perception_gate.2.2.2.2.2⟩

/-- C10. A call of `capture_and_describe` that does not run inference leaves
`image_hash` and `last_description` unchanged and increments
`ticks_since_inference` by exactly one; consequently the similarity decision
of any later call compares against the fingerprint recorded at the last
inference, not against the previous call's fingerprint. -/
theorem c10_cached_call_frame (cfg : PerceptionConfig) (st : VisionCacheState)
    (h d : String) (hc : (capture_and_describe cfg st h d).2.2 = false) :
    ((capture_and_describe cfg st h d).1.image_hash = st.image_hash ∧
     (capture_and_describe cfg st h d).1.last_description = st.last_description ∧
     (capture_and_describe cfg st h d).1.ticks_since_inference =
       st.ticks_since_inference + 1) ∧
    ∀ next_hash : String,
      hashSimilarity (capture_and_describe cfg st h d).1.image_hash next_hash =
        hashSimilarity st.image_hash next_hash := by
  simp only [capture_and_describe] at hc ⊢
  split_ifs at hc ⊢ with hrun
  all_goals exact ⟨⟨rfl, rfl, rfl⟩, fun _ => rfl⟩

/-- Cache state right after the first scenario inference, for the C10
witness. -/
def c10state : VisionCacheState :=
  { image_hash := some "ab", last_description := some "first description",
    ticks_since_inference := 0 }

lemma c10state_cached :
    (capture_and_describe cfgGlance3 c10state "ab" "again").2.2 = false := by
  rw [capture_cached cfgGlance3 c10state "ab" "again" (by
    rw [show c10state.last_description.isNone = false from rfl]
    rw [show c10state.image_hash = some "ab" from rfl]
    rw [show decide (hashSimilarity (some "ab") "ab" <
      1 - cfgGlance3.change_threshold) = false from
        (by rw [decide_eq_false_iff_not, hashSimilarity_self_ab]
            norm_num [cfgGlance3])]
    simp [cfgGlance3, c10state])]

/-- Witness for C10: the concrete cached call of the C4 scenario keeps the
fingerprint and description and bumps the counter to 1. -/
theorem c10_cached_call_frame_witness :
    (capture_and_describe cfgGlance3 c10state "ab" "again").1.image_hash =
      c10state.image_hash ∧
    (capture_and_describe cfgGlance3 c10state "ab" "again").1.last_description =
      c10state.last_description ∧
    (capture_and_describe cfgGlance3 c10state "ab" "again").1.ticks_since_inference =
      c10state.ticks_since_inference + 1 :=
  (c10_cached_call_frame cfgGlance3 c10state "ab" "again" c10state_cached).1

/-- One schedulable agent, from the `TickAgent` protocol of simulation.py:
an id together with its (modelled as pure) tick function. -/
structure AgentSpec (α : Type) where
  agent_id : String
  tick : ℕ → α

/-- Insertion into a Python-dict-like association list: an existing key
keeps its position and gets the new value, a new key is appended. -/
def dictInsert {α : Type} (acc : List (String × α)) (k : String) (v : α) :
    List (String × α) :=
  if acc.any fun p => decide (p.1 = k) then
    acc.map fun p => if p.1 = k then (k, v) else p
  else acc ++ [(k, v)]

/-- Insertion-ordered dict construction, modelling
`{agent.agent_id: agent for agent in agents}` in simulation.py. -/
def buildDict {α : Type} (l : List (String × α)) : List (String × α) :=
  l.foldl (fun acc p => dictInsert acc p.1 p.2) []

/-- Scheduler state, from simulation.py `SimulationScheduler.__init__`.  The
asyncio semaphore, write lock and wall-clock sleeps orchestrate I/O overlap
only and have no effect on the returned values, so they are not modelled;
`has_persist` records whether a persistence callback was supplied. -/
structure SimulationScheduler (α : Type) where
  agents : List (String × (ℕ → α))
  tick_interval_s : ℚ
  max_concurrency : ℕ
  has_persist : Bool

/-- Validating construction, from simulation.py
`SimulationScheduler.__init__`: population within [5, 25], concurrency at
least 1, effective concurrency capped at the population size. -/
def mkSimulationScheduler {α : Type} (agents : List (AgentSpec α))
    (tick_interval_s : ℚ) (max_concurrency : ℕ) (has_persist : Bool) :
    Except String (SimulationScheduler α) :=
  if ¬ (5 ≤ agents.length ∧ agents.length ≤ 25) then
    Except.error "SimulationScheduler requires between 5 and 25 agents."
  else if max_concurrency < 1 then
    Except.error "max_concurrency must be positive."
  else
    Except.ok
      { agents := buildDict (agents.map fun a => (a.agent_id, a.tick))
        tick_interval_s := tick_interval_s
        max_concurrency := min max_concurrency agents.length
        has_persist := has_persist }

/-- Round snapshot, from simulation.py `SimulationSnapshot` (the wall-clock
timestamp is not modelled). -/
structure SimulationSnapshot (α : Type) where
  tick_index : ℕ
  agent_outputs : List (String × α)

/-- Outputs of one round: every dict entry's tick result, from the
`_run_agent_tick` fan-out in simulation.py `run`. -/
def runTickOutputs {α : Type} (s : SimulationScheduler α) (i : ℕ) :
    List (String × α) :=
  s.agents.map fun p => (p.1, p.2 i)

/-- The run loop of simulation.py `SimulationScheduler.run`, without any
`stop()` call (the `_running` flag then never changes): one snapshot per
round, and one persistence-callback invocation per agent per round when a
callback was supplied.  Returns the history and the logged persistence
calls `(agent_id, tick_index)` (`total_ticks ≤ 0` yields empty results,
matching the early return). -/
def SimulationScheduler.run {α : Type} (s : SimulationScheduler α)
    (total_ticks : ℕ) :
    List (SimulationSnapshot α) × List (String × ℕ) :=
  ((List.range total_ticks).map fun i =>
      { tick_index := i, agent_outputs := runTickOutputs s i },
    (List.range total_ticks).flatMap fun i =>
      if s.has_persist then s.agents.map fun p => (p.1, i) else [])

lemma dictInsert_not_mem {α : Type} (acc : List (String × α)) (k : String)
    (v : α) (h : k ∉ acc.map Prod.fst) :
    dictInsert acc k v = acc ++ [(k, v)] := by
  unfold dictInsert
  rw [if_neg]
  intro hany
  rw [List.any_eq_true] at hany
  obtain ⟨p, hp, hpk⟩ := hany
  rw [decide_eq_true_eq] at hpk
  exact h (List.mem_map.mpr ⟨p, hp, hpk⟩)

lemma buildDict_go {α : Type} : ∀ (l acc : List (String × α)),
    (∀ key ∈ l.map Prod.fst, key ∉ acc.map Prod.fst) →
    (l.map Prod.fst).Nodup →
    l.foldl (fun a p => dictInsert a p.1 p.2) acc = acc ++ l := by
  intro l
  induction l with
  | nil =>
    intro acc _ _
    simp
  | cons p rest ih =>
    intro acc hdisj hnodup
    simp only [List.map_cons, List.nodup_cons] at hnodup
    simp only [List.foldl_cons]
    rw [dictInsert_not_mem acc p.1 p.2 (hdisj p.1 (by simp))]
    rw [ih (acc ++ [(p.1, p.2)]) ?_ hnodup.2]
    · simp
    · intro key hk hmem
      rw [List.map_append, List.mem_append] at hmem
      rcases hmem with hka | hkp
      · exact hdisj key (by simp [hk]) hka
      · have hkeyp : key = p.1 := by simpa using hkp
        rcases List.mem_map.mp hk with ⟨q, hq, hqk⟩
        exact hnodup.1 (List.mem_map.mpr ⟨q, hq, by rw [hqk, hkeyp]⟩)

lemma buildDict_of_nodup {α : Type} (l : List (String × α))
    (h : (l.map Prod.fst).Nodup) : buildDict l = l := by
  unfold buildDict
  rw [buildDict_go l [] (by simp) h]
  simp

lemma flatMap_const_length {β : Type} (f : ℕ → List β) (n : ℕ)
    (h : ∀ i, (f i).length = n) :
    ∀ L : List ℕ, (L.flatMap f).length = L.length * n := by
  intro L
  induction L with
  | nil => simp
  | cons x xs ih =>
    simp only [List.flatMap_cons, List.length_append, ih, h x,
      List.length_cons]
    ring

/-- Scheduler value produced by a successful construction. -/
def schedulerOf {α : Type} (agents : List (AgentSpec α)) (tick_interval_s : ℚ)
    (max_concurrency : ℕ) (has_persist : Bool) : SimulationScheduler α :=
  { agents := buildDict (agents.map fun a => (a.agent_id, a.tick))
    tick_interval_s := tick_interval_s
    max_concurrency := min max_concurrency agents.length
    has_persist := has_persist }

lemma mkSimulationScheduler_ok {α : Type} (agents : List (AgentSpec α))
    (tick_interval_s : ℚ) (mc : ℕ) (hp : Bool)
    (h5 : 5 ≤ agents.length) (h25 : agents.length ≤ 25) (hmc : 1 ≤ mc) :
    mkSimulationScheduler agents tick_interval_s mc hp =
      Except.ok (schedulerOf agents tick_interval_s mc hp) := by
  unfold mkSimulationScheduler schedulerOf
  rw [if_neg (not_not_intro ⟨h5, h25⟩), if_neg (by omega)]

/-- C3 (amended with pairwise-distinct agent ids). For 5 ≤ P ≤ 25 agents
with distinct ids, concurrency ≥ 1, a persistence callback and T > 0 ticks
with no `stop()` call, construction succeeds and `run` logs exactly T×P
persistence calls and returns exactly T snapshots with tick indices 0..T-1
in order, each holding exactly P outputs, one per agent id. -/
theorem c3_run_counts_amended (α : Type) (agent_list : List (AgentSpec α))
    (tick_interval_s : ℚ) (mc T : ℕ)
    (h5 : 5 ≤ agent_list.length) (h25 : agent_list.length ≤ 25)
    (hmc : 1 ≤ mc) (_hT : 0 < T)
    (hids : (agent_list.map (·.agent_id)).Nodup) :
    mkSimulationScheduler agent_list tick_interval_s mc true =
      Except.ok (schedulerOf agent_list tick_interval_s mc true) ∧
    ((schedulerOf agent_list tick_interval_s mc true).run T).2.length =
      T * agent_list.length ∧
    ((schedulerOf agent_list tick_interval_s mc true).run T).1.length = T ∧
    ((schedulerOf agent_list tick_interval_s mc true).run T).1.map (·.tick_index) =
      List.range T ∧
    ∀ snap ∈ ((schedulerOf agent_list tick_interval_s mc true).run T).1,
      snap.agent_outputs.length = agent_list.length ∧
      snap.agent_outputs.map Prod.fst = agent_list.map (·.agent_id) := by
  have hkeys : ((agent_list.map fun a => (a.agent_id, a.tick)).map Prod.fst).Nodup := by
    simpa [List.map_map, Function.comp_def] using hids
  have hag : (schedulerOf agent_list tick_interval_s mc true).agents =
      agent_list.map fun a => (a.agent_id, a.tick) :=
    buildDict_of_nodup _ hkeys
  refine ⟨mkSimulationScheduler_ok agent_list tick_interval_s mc true h5 h25 hmc,
    ?_, ?_, ?_, ?_⟩
  · simp only [SimulationScheduler.run]
    rw [flatMap_const_length _ agent_list.length (fun i => by
      rw [if_pos (show (schedulerOf agent_list tick_interval_s mc true).has_persist
        = true from rfl), List.length_map, hag, List.length_map])]
    rw [List.length_range]
  · simp [SimulationScheduler.run]
  · simp [SimulationScheduler.run, List.map_map, Function.comp_def]
  · intro snap hsnap
    simp only [SimulationScheduler.run, List.mem_map] at hsnap
    obtain ⟨i, _, rfl⟩ := hsnap
    constructor
    · simp [runTickOutputs, hag]
    · simp [runTickOutputs, hag, List.map_map, Function.comp_def]

/-- Five concretely distinct agents for the C3 witness. -/
def c3agents : List (AgentSpec ℕ) :=
  [{ agent_id := "a", tick := fun i => i },
   { agent_id := "b", tick := fun i => i + 1 },
   { agent_id := "c", tick := fun i => 2 * i },
   { agent_id := "d", tick := fun i => i * i },
   { agent_id := "e", tick := fun _ => 7 }]

/-- Witness for C3 (amended): five distinct-id agents over two ticks give
2×5 persistence calls and two snapshots of five outputs each. -/
theorem c3_run_counts_amended_witness :
    mkSimulationScheduler c3agents (1 / 2) 10 true =
      Except.ok (schedulerOf c3agents (1 / 2) 10 true) ∧
    ((schedulerOf c3agents (1 / 2) 10 true).run 2).2.length = 2 * c3agents.length ∧
    ((schedulerOf c3agents (1 / 2) 10 true).run 2).1.length = 2 ∧
    ((schedulerOf c3agents (1 / 2) 10 true).run 2).1.map (·.tick_index) =
      List.range 2 ∧
    ∀ snap ∈ ((schedulerOf c3agents (1 / 2) 10 true).run 2).1,
      snap.agent_outputs.length = c3agents.length ∧
      snap.agent_outputs.map Prod.fst = c3agents.map (·.agent_id) :=
  c3_run_counts_amended ℕ c3agents (1 / 2) 10 2 (by decide) (by decide)
    (by decide) (by decide) (by decide)

/-- Five agents two of which share the id "a", for the C3 counterexample. -/
def dupAgents : List (AgentSpec ℕ) :=
  [{ agent_id := "a", tick := fun _ => 0 },
   { agent_id := "b", tick := fun _ => 0 },
   { agent_id := "c", tick := fun _ => 0 },
   { agent_id := "d", tick := fun _ => 0 },
   { agent_id := "a", tick := fun _ => 0 }]

/-- Counterexample to C3 as stated: a scheduler constructed over P = 5
agents (two sharing an id) accepts construction, but one run tick invokes
the persistence callback only 4 times (the dict keeps 4 entries), not
T×P = 5, and the single snapshot has 4 agent outputs. -/
theorem c3_duplicate_ids_counterexample :
    dupAgents.length = 5 ∧
    (mkSimulationScheduler dupAgents (1 / 2) 10 true).toOption.map
        (fun s => ((s.run 1).2.length, (s.run 1).1.map fun snap =>
          snap.agent_outputs.length)) = some (4, [4]) ∧
    ¬ (mkSimulationScheduler dupAgents (1 / 2) 10 true).toOption.map
        (fun s => ((s.run 1).2.length, (s.run 1).1.map fun snap =>
          snap.agent_outputs.length)) = some (1 * 5, [5]) := by
  refine ⟨rfl, ?_, ?_⟩
  · rfl
  · intro h
    rw [show (mkSimulationScheduler dupAgents (1 / 2) 10 true).toOption.map
        (fun s => ((s.run 1).2.length, (s.run 1).1.map fun snap =>
          snap.agent_outputs.length)) = some (4, [4]) from rfl] at h
    simp at h

/-- Outcome of one raw backend embed call, from the body of embeddings.py
`_embed_with_retry`: a response carrying an `embeddings` list (possibly
empty, which the code turns into a RuntimeError), an Ollama `ResponseError`,
or a timeout of the `asyncio.wait_for` wrapper. -/
inductive EmbedBackendResult where
  | ok (embeddings : List (List ℚ))
  | respError
  | timeout
deriving DecidableEq

/-- Whether a raw call outcome counts as a success (non-empty embeddings);
everything else is caught by the `except` clause as transient. -/
def embedCallSucceeds : EmbedBackendResult → Bool
  | .ok es => decide (es ≠ [])
  | .respError => false
  | .timeout => false

/-- Wrapped terminal failure, from the RuntimeError raised when retries are
exhausted; its message carries the attempt count and the model name. -/
structure EmbedFailure where
  attempts : ℕ
  model : String
deriving DecidableEq, Repr

/-- Observable trace of one `_embed_with_retry` run: how many backend calls
were made, the backoff sleeps in order, and the final outcome. -/
structure RetryTrace where
  calls : ℕ
  sleeps : List ℚ
  result : Except EmbedFailure (List (List ℚ))

/-- The retry loop of embeddings.py `_embed_with_retry`, driven by the
sequence of backend outcomes indexed by attempt number: on a transient
failure with `attempt ≥ max_retries` (zero remaining budget) the wrapped
failure surfaces, otherwise the loop sleeps `retry_backoff_s * 2 ^ attempt`
and retries. -/
def embedRetryGo (model : String) (retry_backoff_s : ℚ)
    (backend : ℕ → EmbedBackendResult) : ℕ → ℕ → RetryTrace
  | attempt, 0 =>
    match backend attempt with
    | .ok es =>
      if es = [] then
        { calls := attempt + 1, sleeps := [],
          result := Except.error { attempts := attempt + 1, model := model } }
      else { calls := attempt + 1, sleeps := [], result := Except.ok es }
    | _ =>
      { calls := attempt + 1, sleeps := [],
        result := Except.error { attempts := attempt + 1, model := model } }
  | attempt, remaining + 1 =>
    match backend attempt with
    | .ok es =>
      if es = [] then
        let t := embedRetryGo model retry_backoff_s backend (attempt + 1) remaining
        { calls := t.calls, sleeps := retry_backoff_s * 2 ^ attempt :: t.sleeps,
          result := t.result }
      else { calls := attempt + 1, sleeps := [], result := Except.ok es }
    | _ =>
      let t := embedRetryGo model retry_backoff_s backend (attempt + 1) remaining
      { calls := t.calls, sleeps := retry_backoff_s * 2 ^ attempt :: t.sleeps,
        result := t.result }

/-- Entry point of the retry loop (`attempt = 0`, budget `max_retries`). -/
def embedWithRetry (model : String) (max_retries : ℕ) (retry_backoff_s : ℚ)
    (backend : ℕ → EmbedBackendResult) : RetryTrace :=
  embedRetryGo model retry_backoff_s backend 0 max_retries

lemma embedRetryGo_succeeds (model : String) (b : ℚ)
    (backend : ℕ → EmbedBackendResult) (attempt rem : ℕ)
    (es : List (List ℚ)) (hbk : backend attempt = .ok es) (hes : es ≠ []) :
    embedRetryGo model b backend attempt rem =
      { calls := attempt + 1, sleeps := [], result := Except.ok es } := by
  cases rem <;> simp [embedRetryGo, hbk, hes]

lemma embedRetryGo_zero_transient (model : String) (b : ℚ)
    (backend : ℕ → EmbedBackendResult) (attempt : ℕ)
    (hb : embedCallSucceeds (backend attempt) = false) :
    embedRetryGo model b backend attempt 0 =
      { calls := attempt + 1, sleeps := [],
        result := Except.error { attempts := attempt + 1, model := model } } := by
  rcases hbk : backend attempt with es | _ | _
  · have hes : es = [] := by
      rw [hbk] at hb
      simpa [embedCallSucceeds] using hb
    simp [embedRetryGo, hbk, hes]
  · simp [embedRetryGo, hbk]
  · simp [embedRetryGo, hbk]

lemma embedRetryGo_succ_transient (model : String) (b : ℚ)
    (backend : ℕ → EmbedBackendResult) (attempt r : ℕ)
    (hb : embedCallSucceeds (backend attempt) = false) :
    embedRetryGo model b backend attempt (r + 1) =
      { calls := (embedRetryGo model b backend (attempt + 1) r).calls
        sleeps := b * 2 ^ attempt ::
          (embedRetryGo model b backend (attempt + 1) r).sleeps
        result := (embedRetryGo model b backend (attempt + 1) r).result } := by
  rcases hbk : backend attempt with es | _ | _
  · have hes : es = [] := by
      rw [hbk] at hb
      simpa [embedCallSucceeds] using hb
    simp [embedRetryGo, hbk, hes]
  · simp [embedRetryGo, hbk]
  · simp [embedRetryGo, hbk]

lemma embedCallSucceeds_ok (backend : ℕ → EmbedBackendResult) (attempt : ℕ)
    (hs : embedCallSucceeds (backend attempt) = true) :
    ∃ es, backend attempt = .ok es ∧ es ≠ [] := by
  rcases hbk : backend attempt with es | _ | _
  · rw [hbk] at hs
    simp only [embedCallSucceeds, decide_eq_true_eq] at hs
    exact ⟨es, rfl, hs⟩
  · rw [hbk] at hs
    simp [embedCallSucceeds] at hs
  · rw [hbk] at hs
    simp [embedCallSucceeds] at hs

lemma embedRetryGo_spec (model : String) (b : ℚ)
    (backend : ℕ → EmbedBackendResult) :
    ∀ (remaining attempt : ℕ),
      (attempt + 1 ≤ (embedRetryGo model b backend attempt remaining).calls ∧
        (embedRetryGo model b backend attempt remaining).calls ≤
          attempt + remaining + 1) ∧
      (embedRetryGo model b backend attempt remaining).sleeps =
        (List.range' attempt ((embedRetryGo model b backend attempt remaining).calls
          - 1 - attempt)).map (fun i => b * 2 ^ i) ∧
      ((∀ i, attempt ≤ i → i ≤ attempt + remaining →
          embedCallSucceeds (backend i) = false) →
        (embedRetryGo model b backend attempt remaining).result =
          Except.error { attempts := attempt + remaining + 1, model := model } ∧
        (embedRetryGo model b backend attempt remaining).calls =
          attempt + remaining + 1) := by
  intro remaining
  induction remaining with
  | zero =>
    intro attempt
    by_cases hs : embedCallSucceeds (backend attempt) = true
    · obtain ⟨es, hbk, hes⟩ := embedCallSucceeds_ok backend attempt hs
      rw [embedRetryGo_succeeds model b backend attempt 0 es hbk hes]
      dsimp only
      refine ⟨⟨le_rfl, by omega⟩, by simp, ?_⟩
      intro hfail
      have := hfail attempt le_rfl (by omega)
      rw [this] at hs
      exact absurd hs (by simp)
    · have hs' : embedCallSucceeds (backend attempt) = false := by
        revert hs
        cases embedCallSucceeds (backend attempt) <;> simp
      rw [embedRetryGo_zero_transient model b backend attempt hs']
      dsimp only
      exact ⟨⟨le_rfl, by omega⟩, by simp, fun _ => ⟨rfl, rfl⟩⟩
  | succ r ih =>
    intro attempt
    by_cases hs : embedCallSucceeds (backend attempt) = true
    · obtain ⟨es, hbk, hes⟩ := embedCallSucceeds_ok backend attempt hs
      rw [embedRetryGo_succeeds model b backend attempt (r + 1) es hbk hes]
      dsimp only
      refine ⟨⟨le_rfl, by omega⟩, by simp, ?_⟩
      intro hfail
      have := hfail attempt le_rfl (by omega)
      rw [this] at hs
      exact absurd hs (by simp)
    · have hs' : embedCallSucceeds (backend attempt) = false := by
        revert hs
        cases embedCallSucceeds (backend attempt) <;> simp
      obtain ⟨⟨ih1a, ih1b⟩, ih2, ih3⟩ := ih (attempt + 1)
      rw [embedRetryGo_succ_transient model b backend attempt r hs']
      dsimp only
      refine ⟨⟨by omega, by omega⟩, ?_, ?_⟩
      · have hn : (embedRetryGo model b backend (attempt + 1) r).calls - 1 - attempt
            = ((embedRetryGo model b backend (attempt + 1) r).calls - 1
              - (attempt + 1)) + 1 := by omega
        rw [ih2, hn, List.range'_succ, List.map_cons]
      · intro hfail
        have hrec := ih3 (fun i hi1 hi2 => hfail i (by omega) (by omega))
        have hidx : attempt + 1 + r + 1 = attempt + (r + 1) + 1 := by omega
        exact ⟨by rw [hrec.1, hidx], by rw [hrec.2, hidx]⟩

/-- C9. The retry loop of `_embed_with_retry` makes at most
`max_retries + 1` backend attempts; the backoff sleeps observed are exactly
`retry_backoff_s * 2 ^ attempt` for the successive failing attempts
(doubling each time); and when every allowed attempt fails transiently the
loop surfaces a wrapped failure carrying the total attempt count and the
model name. -/
theorem c9_embed_retry_policy (model : String) (max_retries : ℕ) (b : ℚ)
    (backend : ℕ → EmbedBackendResult) :
    (embedWithRetry model max_retries b backend).calls ≤ max_retries + 1 ∧
    (embedWithRetry model max_retries b backend).sleeps =
      (List.range ((embedWithRetry model max_retries b backend).calls - 1)).map
        (fun i => b * 2 ^ i) ∧
    ((∀ i, i ≤ max_retries → embedCallSucceeds (backend i) = false) →
      (embedWithRetry model max_retries b backend).result =
        Except.error { attempts := max_retries + 1, model := model } ∧
      (embedWithRetry model max_retries b backend).calls = max_retries + 1) := by
  obtain ⟨⟨h1a, h1b⟩, h2, h3⟩ := embedRetryGo_spec model b backend max_retries 0
  refine ⟨by simpa using h1b, ?_, ?_⟩
  · rw [embedWithRetry, List.range_eq_range']
    simpa using h2
  · intro hfail
    have := h3 (fun i _ hi2 => hfail i (by omega))
    exact ⟨by simpa using this.1, by simpa using this.2⟩

/-- Witness for C9: with `max_retries = 1`, backoff 1 and a backend that
always reports a transient error, the loop makes at most 2 calls and fails
wrapped with attempt count 2 and the model name. -/
theorem c9_embed_retry_policy_witness :
    (embedWithRetry "m" 1 1 (fun _ => EmbedBackendResult.respError)).calls ≤ 2 ∧
    (embedWithRetry "m" 1 1 (fun _ => EmbedBackendResult.respError)).result =
      Except.error { attempts := 2, model := "m" } :=
  ⟨(c9_embed_retry_policy "m" 1 1 (fun _ => EmbedBackendResult.respError)).1,
    ((c9_embed_retry_policy "m" 1 1 (fun _ => EmbedBackendResult.respError)).2.2
      (fun _ _ => rfl)).1⟩
